import Mathlib

/-!
Verification of the xAPI tracking hook (`useXapiTracker`) of the
simple-h5p-quiz repository.

The development shallowly embeds the pure computational content of the hook:

* `safeParseJSON` / `getProgress` — the localStorage read adapter, over an
  explicit store (`RawStore`) and an executable model of the platform's
  `JSON.parse` (`jsonParse`, covering the JSON grammar for null, booleans,
  numbers, strings, arrays and objects);
* `extractActivitySlug` — slug derivation, with the three JavaScript regular
  expressions of the source modelled as explicit string functions
  (`lastSegMatch`, `urlSegMatch`, `trailingSlugRun`);
* `calculateCompletionPercentage`, `updateProgressSummary`, `updateProgress` —
  the progress aggregation logic, as a state transformer over a typed `Store`
  (progress mapping plus summary record).  Timestamps (`new Date()`) are
  passed in explicitly; JavaScript numbers are modelled as `ℤ`/`ℚ` with
  `Math.round` as `jsRound`.
-/

namespace XapiTracker

/-- JavaScript `Math.round` on a rational number: `⌊q + 1/2⌋`
(ties are rounded toward positive infinity). -/
def jsRound (q : ℚ) : ℤ := ⌊q + 1/2⌋

/-- JavaScript `String.prototype.endsWith`: `p` is a suffix of `s`,
decided on the underlying character lists. -/
def jsEndsWith (s p : String) : Bool :=
  decide (s.data.drop (s.data.length - p.data.length) = p.data)

/-- JavaScript truthiness of an optional string: `null`/`undefined` and the
empty string are falsy. -/
def truthy : Option String → Option String
  | none => none
  | some s => if s = "" then none else some s

/-! ### JSON values and a model of the platform's `JSON.parse` -/

/-- A parsed JSON value.  A numeric literal is kept as an exact
mantissa/decimal-exponent pair (its value is `mantissa * 10 ^ exp10`, so the
integer literal `n` parses to `num n 0`); an object is the list of its
key/value pairs in source order. -/
inductive Json where
  | null : Json
  | bool (b : Bool) : Json
  | num (mantissa : ℤ) (exp10 : ℤ) : Json
  | str (s : String) : Json
  | arr (elems : List Json) : Json
  | obj (fields : List (String × Json)) : Json

/-- JSON whitespace. -/
def isJsonWs (c : Char) : Bool :=
  c = ' ' || c = '\t' || c = '\n' || c = '\r'

/-- Skip leading JSON whitespace. -/
def skipWs : List Char → List Char
  | [] => []
  | c :: cs => if isJsonWs c then skipWs cs else c :: cs

/-- Value of a hexadecimal digit. -/
def hexVal (c : Char) : Option Nat :=
  if '0' ≤ c ∧ c ≤ '9' then some (c.toNat - '0'.toNat)
  else if 'a' ≤ c ∧ c ≤ 'f' then some (c.toNat - 'a'.toNat + 10)
  else if 'A' ≤ c ∧ c ≤ 'F' then some (c.toNat - 'A'.toNat + 10)
  else none

/-- Parse the body of a JSON string literal (after the opening quote),
returning the decoded string and the rest of the input.  Escape sequences
follow the JSON grammar; unescaped control characters are rejected. -/
def parseStringBody (acc : List Char) : List Char → Option (String × List Char)
  | [] => none
  | c :: cs =>
    if c = '\"' then some (String.mk acc.reverse, cs)
    else if c = '\\' then
      match cs with
      | '\"' :: rest => parseStringBody ('\"' :: acc) rest
      | '\\' :: rest => parseStringBody ('\\' :: acc) rest
      | '/' :: rest => parseStringBody ('/' :: acc) rest
      | 'b' :: rest => parseStringBody ('\x08' :: acc) rest
      | 'f' :: rest => parseStringBody ('\x0c' :: acc) rest
      | 'n' :: rest => parseStringBody ('\n' :: acc) rest
      | 'r' :: rest => parseStringBody ('\r' :: acc) rest
      | 't' :: rest => parseStringBody ('\t' :: acc) rest
      | 'u' :: h1 :: h2 :: h3 :: h4 :: rest =>
        match hexVal h1, hexVal h2, hexVal h3, hexVal h4 with
        | some a, some b, some c', some d =>
          parseStringBody (Char.ofNat (((a * 16 + b) * 16 + c') * 16 + d) :: acc) rest
        | _, _, _, _ => none
      | _ => none
    else if c.toNat < 32 then none
    else parseStringBody (c :: acc) cs

/-- Decimal digit test. -/
def isDigitCh (c : Char) : Bool := '0' ≤ c ∧ c ≤ '9'

/-- Numeric value of a list of decimal digits. -/
def digitsToNat (ds : List Char) : Nat :=
  ds.foldl (fun n c => n * 10 + (c.toNat - '0'.toNat)) 0

/-- Parse a JSON number (sign, integer part without superfluous leading
zeros, optional fraction, optional exponent), returning its exact value as a
mantissa/decimal-exponent pair. -/
def parseNumber (cs : List Char) : Option ((ℤ × ℤ) × List Char) :=
  let (neg, cs1) :=
    match cs with
    | '-' :: rest => (true, rest)
    | _ => (false, cs)
  let intDigits := cs1.takeWhile isDigitCh
  let cs2 := cs1.dropWhile isDigitCh
  if intDigits.isEmpty then none
  else if intDigits.length > 1 ∧ intDigits.headD '0' = '0' then none
  else
    let (fracPart, cs3) :=
      match cs2 with
      | '.' :: rest =>
        let fds := rest.takeWhile isDigitCh
        ((fds, rest.dropWhile isDigitCh) : List Char × List Char)
      | _ => (([], cs2) : List Char × List Char)
    let fracOk : Bool := match cs2 with | '.' :: _ => !fracPart.isEmpty | _ => true
    if !fracOk then none
    else
      let mant : ℤ := (digitsToNat (intDigits ++ fracPart) : ℤ)
      let mant := if neg then -mant else mant
      let (hasExp, cs4) :=
        match cs3 with
        | 'e' :: rest => (true, rest)
        | 'E' :: rest => (true, rest)
        | _ => (false, cs3)
      if hasExp then
        let (eneg, cs5) :=
          match cs4 with
          | '-' :: rest => (true, rest)
          | '+' :: rest => (false, rest)
          | _ => (false, cs4)
        let eds := cs5.takeWhile isDigitCh
        if eds.isEmpty then none
        else
          let e : ℤ := if eneg then -(digitsToNat eds : ℤ) else (digitsToNat eds : ℤ)
          some ((mant, e - fracPart.length), cs5.dropWhile isDigitCh)
      else
        some ((mant, -(fracPart.length : ℤ)), cs3)

mutual

/-- Parse one JSON value (fuelled recursion). -/
def parseValue : Nat → List Char → Option (Json × List Char)
  | 0, _ => none
  | fuel + 1, cs =>
    match skipWs cs with
    | 'n' :: 'u' :: 'l' :: 'l' :: rest => some (.null, rest)
    | 't' :: 'r' :: 'u' :: 'e' :: rest => some (.bool true, rest)
    | 'f' :: 'a' :: 'l' :: 's' :: 'e' :: rest => some (.bool false, rest)
    | '\"' :: rest => (parseStringBody [] rest).map fun p => (.str p.1, p.2)
    | '[' :: rest =>
      (match skipWs rest with
       | ']' :: r => some (.arr [], r)
       | other => parseElems fuel other [])
    | '{' :: rest =>
      (match skipWs rest with
       | '}' :: r => some (.obj [], r)
       | other => parseFields fuel other [])
    | other => (parseNumber other).map fun p => (.num p.1.1 p.1.2, p.2)

/-- Parse the elements of a JSON array after the opening bracket. -/
def parseElems : Nat → List Char → List Json → Option (Json × List Char)
  | 0, _, _ => none
  | fuel + 1, cs, acc =>
    match parseValue fuel cs with
    | none => none
    | some (v, rest) =>
      match skipWs rest with
      | ',' :: r => parseElems fuel r (v :: acc)
      | ']' :: r => some (.arr (v :: acc).reverse, r)
      | _ => none

/-- Parse the fields of a JSON object after the opening brace. -/
def parseFields : Nat → List Char → List (String × Json) →
    Option (Json × List Char)
  | 0, _, _ => none
  | fuel + 1, cs, acc =>
    match skipWs cs with
    | '\"' :: rest =>
      match parseStringBody [] rest with
      | none => none
      | some (key, afterKey) =>
        match skipWs afterKey with
        | ':' :: afterColon =>
          match parseValue fuel afterColon with
          | none => none
          | some (v, rest') =>
            match skipWs rest' with
            | ',' :: r => parseFields fuel r ((key, v) :: acc)
            | '}' :: r => some (.obj ((key, v) :: acc).reverse, r)
            | _ => none
        | _ => none
    | _ => none

end

/-- Model of the platform's `JSON.parse`: parse one value and require that
only whitespace remains; any failure corresponds to `JSON.parse` throwing. -/
def jsonParse (s : String) : Option Json :=
  match parseValue (2 * s.length + 2) s.data with
  | some (v, rest) => if skipWs rest = [] then some v else none
  | none => none

/-! ### Key-value store adapter (raw level)

`localStorage` is modelled as a partial map from keys to stored strings; the
`try`/`catch` of the source collapses a throwing `JSON.parse` into the same
fallback path that the model takes when `jsonParse` fails. -/

/-- The browser's localStorage: a partial map from keys to stored strings
(`none` models `getItem` returning `null`). -/
def RawStore := String → Option String

/-- Storage key of the per-activity progress mapping. -/
def PROGRESS_KEY : String := "h5p-progress"

/-- `safeParseJSON` of the source: read `key`; a missing entry or an empty
stored string is falsy, so the fallback is returned; a `JSON.parse` failure
is caught and the fallback returned. -/
def safeParseJSON (store : RawStore) (key : String) (fallback : Json) : Json :=
  match store key with
  | none => fallback
  | some stored =>
    if stored = "" then fallback
    else (jsonParse stored).getD fallback

/-- `getProgress` of the source: the parsed progress value, with the empty
mapping as fallback. -/
def getProgress (store : RawStore) : Json :=
  safeParseJSON store PROGRESS_KEY (Json.obj [])

/-! ### xAPI statements (typed level) -/

/-- The two context-extension keys inspected for a content identifier
(`contentId` and `http://id.tincanapi.com/extension/content-id`). -/
structure Extensions where
  contentId : Option String
  tincanContentId : Option String
deriving Repr, DecidableEq

/-- `statement.context`. -/
structure Context where
  extensions : Option Extensions
deriving Repr, DecidableEq

/-- `statement.verb`. -/
structure Verb where
  id : Option String
deriving Repr, DecidableEq

/-- `statement.object`. -/
structure XObject where
  id : Option String
deriving Repr, DecidableEq

/-- `result.score`. -/
structure Score where
  raw : Option ℤ
  max : Option ℤ
deriving Repr, DecidableEq

/-- `statement.result`. -/
structure XResult where
  score : Option Score
  success : Option Bool
deriving Repr, DecidableEq

/-- An xAPI statement, restricted to the fields the tracker reads. -/
structure Statement where
  verb : Option Verb
  object : Option XObject
  context : Option Context
  result : Option XResult
deriving Repr, DecidableEq

/-! ### Statement normalizer -/

/-- Split a character list on a separator; like JavaScript `split`, adjacent
separators and separators at either end produce empty segments. -/
def splitChars (sep : Char) : List Char → List (List Char)
  | [] => [[]]
  | c :: cs =>
    if c = sep then [] :: splitChars sep cs
    else
      match splitChars sep cs with
      | [] => [[c]]
      | p :: ps => (c :: p) :: ps

/-- The slash-delimited segments of a string. -/
def slashSegs (s : String) : List (List Char) := splitChars '/' s.data

/-- Model of the regex match `contentId.match(/\/([^\/]+)$/)`: the capture is
the text after the last slash, provided the string contains a slash and that
text is nonempty. -/
def lastSegMatch (s : String) : Option String :=
  let parts := slashSegs s
  if 2 ≤ parts.length ∧ parts.getLastD [] ≠ [] then some (String.mk (parts.getLastD []))
  else none

/-- Model of the regex match `objectId.match(/\/([^\/]+)(?:\/[^\/]*)?$/)`.
The JavaScript engine returns the leftmost match, i.e. the match starting at
the earliest slash after which at most two segments remain: the capture is
the second-to-last slash-delimited segment when it is nonempty (the optional
group then swallows the final segment), else the final segment when that is
nonempty. -/
def urlSegMatch (s : String) : Option String :=
  let parts := slashSegs s
  let n := parts.length - 1
  if n = 0 then none
  else if 2 ≤ n ∧ parts.getD (n - 1) [] ≠ [] then some (String.mk (parts.getD (n - 1) []))
  else if parts.getD n [] ≠ [] then some (String.mk (parts.getD n []))
  else none

/-- Characters matched by `[a-z0-9-]` with the `i` flag. -/
def isSlugChar (c : Char) : Bool :=
  decide (('a' ≤ c ∧ c ≤ 'z') ∨ ('A' ≤ c ∧ c ≤ 'Z') ∨ ('0' ≤ c ∧ c ≤ '9') ∨ c = '-')

/-- Model of the regex match `objectId.match(/([a-z0-9-]+)$/i)`: the maximal
nonempty trailing run of alphanumeric-or-hyphen characters. -/
def trailingSlugRun (s : String) : Option String :=
  let run := (s.data.reverse.takeWhile isSlugChar).reverse
  if run.isEmpty then none else some (String.mk run)

/-- `extractActivitySlug` of the source: try the two context-extension keys
(first truthy one wins) against the last-segment regex; fall back to the
object id against the url regex, then the trailing-run regex; finally
`"unknown-activity"`. -/
def extractActivitySlug (st : Statement) : String :=
  let exts := st.context.bind Context.extensions
  let contentId :=
    truthy (exts.bind Extensions.contentId) <|> truthy (exts.bind Extensions.tincanContentId)
  match contentId.bind lastSegMatch with
  | some m => m
  | none =>
    match truthy (st.object.bind XObject.id) with
    | none => "unknown-activity"
    | some objectId =>
      match urlSegMatch objectId with
      | some m => m
      | none =>
        match trailingSlugRun objectId with
        | some m => m
        | none => "unknown-activity"

/-- `calculateCompletionPercentage` of the source: 0 when the result or its
score is absent; 0 when `max` is 0; else `Math.round((raw / max) * 100)` with
`raw` defaulting to 0 and `max` to 1. -/
def calculateCompletionPercentage : Option XResult → ℤ
  | none => 0
  | some result =>
    match result.score with
    | none => 0
    | some s =>
      let raw := s.raw.getD 0
      let max := s.max.getD 1
      if max = 0 then 0
      else jsRound ((raw : ℚ) / (max : ℚ) * 100)

/-! ### Progress aggregator (typed level) -/

/-- One per-activity progress record. -/
structure ProgressRecord where
  slug : String
  questionsAnswered : ℕ
  questionsCompleted : ℕ
  lastScore : ℤ
  lastSuccess : Bool
  completionPercentage : ℤ
  isCompleted : Bool
  lastActivity : String
deriving Repr, DecidableEq

/-- The freshly initialized record for a slug (all counters zero, booleans
false, `lastActivity` the current time). -/
def initRecord (slug now : String) : ProgressRecord :=
  { slug := slug
    questionsAnswered := 0
    questionsCompleted := 0
    lastScore := 0
    lastSuccess := false
    completionPercentage := 0
    isCompleted := false
    lastActivity := now }

/-- The progress mapping: slugs to records, in key-insertion order (the shape
of the JSON object stored under the progress key). -/
def ProgressMap := List (String × ProgressRecord)

/-- Mapping lookup (`currentProgress[slug]`). -/
def findRecord : ProgressMap → String → Option ProgressRecord
  | [], _ => none
  | (k, r) :: rest, slug => if k = slug then some r else findRecord rest slug

/-- Mapping update (`currentProgress[slug] = record`): replaces the existing
entry in place, or appends a new one. -/
def setSlug : ProgressMap → String → ProgressRecord → ProgressMap
  | [], slug, r => [(slug, r)]
  | (k, r') :: rest, slug, r =>
    if k = slug then (k, r) :: rest else (k, r') :: setSlug rest slug r

/-- The summary record. -/
structure Summary where
  totalActivities : ℕ
  completedActivities : ℕ
  completionRate : ℤ
  averageScorePercent : ℤ
  lastUpdated : String
deriving Repr, DecidableEq

/-- `updateProgressSummary` of the source, as the summary value it persists:
counts of all/completed activities, rounded completion rate, and the rounded
mean of `completionPercentage` over completed activities whose
`completionPercentage` is strictly positive (0 when none qualify). -/
def updateProgressSummary (progressData : ProgressMap) (now : String) : Summary :=
  let activities := progressData.map Prod.snd
  let totalActivities := activities.length
  let completedActivities := (activities.filter (·.isCompleted)).length
  let completionRate : ℤ :=
    if 0 < totalActivities then
      jsRound ((completedActivities : ℚ) / (totalActivities : ℚ) * 100)
    else 0
  let completedWithScores :=
    activities.filter fun a => a.isCompleted && decide (0 < a.completionPercentage)
  let averageScorePercent : ℤ :=
    if 0 < completedWithScores.length then
      jsRound (((completedWithScores.map (·.completionPercentage)).sum : ℚ) /
        (completedWithScores.length : ℚ))
    else 0
  { totalActivities := totalActivities
    completedActivities := completedActivities
    completionRate := completionRate
    averageScorePercent := averageScorePercent
    lastUpdated := now }

/-- The tracker's persisted state at the typed level: the progress mapping
(under the progress key) and the summary record (under the summary key,
absent until first written). -/
structure Store where
  progress : ProgressMap
  summary : Option Summary

/-- The store before any qualifying statement was processed. -/
def emptyStore : Store := { progress := [], summary := none }

/-- The per-record mutation `updateProgress` performs once the verb
qualifies: the answered branch, then the completed branch, then the
`lastActivity` refresh, applied to the (possibly freshly initialized)
record. -/
def recordAfter (v : String) (result : Option XResult) (now : String)
    (ap0 : ProgressRecord) : ProgressRecord :=
  let ap1 :=
    if jsEndsWith v "/answered" then
      let ap := { ap0 with questionsAnswered := ap0.questionsAnswered + 1 }
      match result with
      | some r =>
        { ap with
          lastScore := (r.score.bind Score.raw).getD 0
          lastSuccess := r.success.getD false
          completionPercentage := calculateCompletionPercentage (some r) }
      | none => ap
    else ap0
  let ap2 :=
    if jsEndsWith v "/completed" then
      let ap := { ap1 with
        questionsCompleted := ap1.questionsCompleted + 1
        isCompleted := true }
      match result with
      | some r =>
        { ap with
          lastScore := (r.score.bind Score.raw).getD 0
          lastSuccess := r.success.getD false
          completionPercentage := calculateCompletionPercentage (some r) }
      | none => ap
    else ap1
  { ap2 with lastActivity := now }

/-- Whether a statement's verb makes `updateProgress` act at all (the guard
of the source's early return; an absent verb, and with it the empty string,
ends in neither suffix). -/
def qualifiesStatement (st : Statement) : Bool :=
  match st.verb.bind Verb.id with
  | none => false
  | some v => jsEndsWith v "/answered" || jsEndsWith v "/completed"

/-- `updateProgress` of the source: derive the slug; return unchanged unless
the verb ends in `/answered` or `/completed`; otherwise read the mapping,
initialize the slug's record if missing, mutate it per verb branch, write
the mapping back and recompute the summary from it. -/
def updateProgress (store : Store) (st : Statement) (now : String) : Store :=
  let slug := extractActivitySlug st
  match st.verb.bind Verb.id with
  | none => store
  | some v =>
    if jsEndsWith v "/answered" || jsEndsWith v "/completed" then
      let ap0 := (findRecord store.progress slug).getD (initRecord slug now)
      let newProgress := setSlug store.progress slug (recordAfter v st.result now ap0)
      { progress := newProgress
        summary := some (updateProgressSummary newProgress now) }
    else store

/-- Fold a batch of timestamped statements through `updateProgress`. -/
def applyStatements (store : Store) (evs : List (Statement × String)) : Store :=
  evs.foldl (fun s e => updateProgress s e.1 e.2) store

/-! ### Specification-side definitions and proof infrastructure -/

/-- Spec-side definition for the summary average, following the claim's words
literally: the rounded mean of `completionPercentage` over completed
activities with NONZERO `completionPercentage`, and 0 when none qualify. -/
def specAverageNonzero (m : ProgressMap) : ℤ :=
  let qual := (m.map Prod.snd).filter fun a =>
    a.isCompleted && decide (a.completionPercentage ≠ 0)
  if qual.length = 0 then 0
  else jsRound (((qual.map (·.completionPercentage)).sum : ℚ) / (qual.length : ℚ))

/-- Spec-side definition for the summary average as amended: the rounded mean
of `completionPercentage` over completed activities with strictly POSITIVE
`completionPercentage`, and 0 when none qualify. -/
def specAveragePositive (m : ProgressMap) : ℤ :=
  let qual := (m.map Prod.snd).filter fun a =>
    a.isCompleted && decide (0 < a.completionPercentage)
  if qual.length = 0 then 0
  else jsRound (((qual.map (·.completionPercentage)).sum : ℚ) / (qual.length : ℚ))

/-- The store at slug `s` holds a record marked completed. -/
def completedAt (store : Store) (s : String) : Prop :=
  ∃ rec, findRecord store.progress s = some rec ∧ rec.isCompleted = true

/-- How one statement updates, per slug, the most recent qualifying result
(a result attached to a statement whose verb qualifies): a qualifying
statement carrying a result overrides the slug it maps to; anything else
leaves every slug's value alone. -/
def stepQR (f : String → Option XResult) (st : Statement) : String → Option XResult :=
  fun s =>
    if qualifiesStatement st = true ∧ extractActivitySlug st = s then
      match st.result with
      | some r => some r
      | none => f s
    else f s

/-- The most recent qualifying result per slug across a batch of statements
(`none` when no qualifying statement for that slug carried a result). -/
def lastQR (evs : List (Statement × String)) : String → Option XResult :=
  evs.foldl (fun f e => stepQR f e.1) fun _ => none

/-- The invariant tying each record's `completionPercentage` to the most
recent qualifying result for its slug: present records carry its completion
percentage, absent records mean no qualifying result was seen. -/
def cpInv (store : Store) (f : String → Option XResult) : Prop :=
  ∀ s, (∀ rec, findRecord store.progress s = some rec →
          rec.completionPercentage = calculateCompletionPercentage (f s)) ∧
       (findRecord store.progress s = none → f s = none)

/-! ### Concrete inputs used in witnesses and counterexamples -/

/-- A result-free `answered` statement. -/
def stAnswered : Statement :=
  { verb := some ⟨some "http://adlnet.gov/expapi/verbs/answered"⟩,
    object := none, context := none, result := none }

/-- A result-free `completed` statement. -/
def stCompleted : Statement :=
  { verb := some ⟨some "http://adlnet.gov/expapi/verbs/completed"⟩,
    object := none, context := none, result := none }

/-- An `attempted` statement (its verb qualifies for neither branch). -/
def stAttempted : Statement :=
  { verb := some ⟨some "http://adlnet.gov/expapi/verbs/attempted"⟩,
    object := none, context := none, result := none }

/-- A score of 8 out of 10. -/
def res810 : XResult :=
  { score := some { raw := some 8, max := some 10 }, success := some true }

/-- An `answered` statement carrying the 8/10 score. -/
def stAnswered810 : Statement :=
  { verb := some ⟨some "http://adlnet.gov/expapi/verbs/answered"⟩,
    object := none, context := none, result := some res810 }

/-- A score of 2 out of a maximum of 1 (raw above max). -/
def resOvershoot : XResult :=
  { score := some { raw := some 2, max := some 1 }, success := none }

/-- An `answered` statement carrying the overshooting score. -/
def stAnsweredOvershoot : Statement :=
  { verb := some ⟨some "v/answered"⟩,
    object := none, context := none, result := some resOvershoot }

/-- A completed record at completion percentage 80. -/
def rec80 : ProgressRecord :=
  { slug := "a", questionsAnswered := 0, questionsCompleted := 1, lastScore := 8,
    lastSuccess := true, completionPercentage := 80, isCompleted := true,
    lastActivity := "t0" }

/-- An uncompleted record at completion percentage 0. -/
def recTodo : ProgressRecord :=
  { slug := "b", questionsAnswered := 1, questionsCompleted := 0, lastScore := 0,
    lastSuccess := false, completionPercentage := 0, isCompleted := false,
    lastActivity := "t1" }

/-- A completed record with a negative completion percentage. -/
def recNeg : ProgressRecord :=
  { slug := "a", questionsAnswered := 1, questionsCompleted := 1, lastScore := -1,
    lastSuccess := false, completionPercentage := -50, isCompleted := true,
    lastActivity := "t0" }

/-- A two-activity mapping: one completed at 80, one uncompleted. -/
def mapTwo : ProgressMap := [("a", rec80), ("b", recTodo)]

/-- A mapping holding only the negatively-scored completed record. -/
def mapNeg : ProgressMap := [("a", recNeg)]

/-- A store with a record under the slug `other`. -/
def storeOther : Store :=
  { progress := [("other", initRecord "other" "t0")], summary := none }

/-! ### Helper lemmas -/

theorem findRecord_setSlug_self (m : ProgressMap) (k : String) (r : ProgressRecord) :
    findRecord (setSlug m k r) k = some r := by
  induction m with
  | nil => simp [setSlug, findRecord]
  | cons h t ih =>
    obtain ⟨k', r'⟩ := h
    by_cases hk : k' = k <;> simp [setSlug, findRecord, hk, ih]

theorem findRecord_setSlug_ne (m : ProgressMap) (k k' : String) (r : ProgressRecord)
    (h : k' ≠ k) : findRecord (setSlug m k r) k' = findRecord m k' := by
  induction m with
  | nil => simp [setSlug, findRecord, Ne.symm h]
  | cons hd t ih =>
    obtain ⟨a, b⟩ := hd
    by_cases ha : a = k
    · subst ha
      simp [setSlug, findRecord, Ne.symm h]
    · by_cases ha' : a = k' <;> simp [setSlug, findRecord, ha, ha', ih, h]

theorem answered_not_completed (v : String) (h : jsEndsWith v "/answered" = true) :
    jsEndsWith v "/completed" = false := by
  by_contra hc
  rw [Bool.not_eq_false] at hc
  unfold jsEndsWith at h hc
  rw [decide_eq_true_iff] at h hc
  have ha9 : ("/answered".data).length = 9 := by decide
  have hc10 : ("/completed".data).length = 10 := by decide
  rw [ha9] at h
  rw [hc10] at hc
  have hlen : v.data.length - (v.data.length - 10) = 10 := by
    have h' := congrArg List.length hc
    rw [List.length_drop, hc10] at h'
    exact h'
  have key : v.data.drop (v.data.length - 9) = ("/completed".data).drop 1 := by
    rw [← hc, List.drop_drop]
    congr 1
    omega
  rw [h] at key
  exact absurd key (by decide)

theorem recordAfter_questionsAnswered (v : String) (res : Option XResult)
    (now : String) (ap : ProgressRecord) (h : jsEndsWith v "/answered" = true) :
    (recordAfter v res now ap).questionsAnswered = ap.questionsAnswered + 1 := by
  cases res <;> cases hc : jsEndsWith v "/completed" <;> simp [recordAfter, h, hc]

theorem recordAfter_isCompleted_of_completed (v : String) (res : Option XResult)
    (now : String) (ap : ProgressRecord) (h : jsEndsWith v "/completed" = true) :
    (recordAfter v res now ap).isCompleted = true := by
  cases res <;> cases ha : jsEndsWith v "/answered" <;> simp [recordAfter, h, ha]

theorem recordAfter_isCompleted_of_not_completed (v : String) (res : Option XResult)
    (now : String) (ap : ProgressRecord) (h : jsEndsWith v "/completed" = false) :
    (recordAfter v res now ap).isCompleted = ap.isCompleted := by
  cases res <;> cases ha : jsEndsWith v "/answered" <;> simp [recordAfter, h, ha]

theorem recordAfter_isCompleted_mono (v : String) (res : Option XResult)
    (now : String) (ap : ProgressRecord) (h : ap.isCompleted = true) :
    (recordAfter v res now ap).isCompleted = true := by
  cases hc : jsEndsWith v "/completed"
  · rw [recordAfter_isCompleted_of_not_completed _ _ _ _ hc, h]
  · exact recordAfter_isCompleted_of_completed _ _ _ _ hc

theorem recordAfter_completionPercentage (v : String) (res : Option XResult)
    (now : String) (ap : ProgressRecord)
    (hq : (jsEndsWith v "/answered" || jsEndsWith v "/completed") = true) :
    (recordAfter v res now ap).completionPercentage =
      match res with
      | some r => calculateCompletionPercentage (some r)
      | none => ap.completionPercentage := by
  cases res <;> cases ha : jsEndsWith v "/answered" <;>
    cases hc : jsEndsWith v "/completed" <;> simp_all [recordAfter]

theorem updateProgress_progress_of_qualifies (store : Store) (st : Statement)
    (now : String) (v : String) (hv : st.verb.bind Verb.id = some v)
    (hq : (jsEndsWith v "/answered" || jsEndsWith v "/completed") = true) :
    (updateProgress store st now).progress =
      setSlug store.progress (extractActivitySlug st)
        (recordAfter v st.result now
          ((findRecord store.progress (extractActivitySlug st)).getD
            (initRecord (extractActivitySlug st) now))) := by
  simp [updateProgress, hv, hq]

theorem updateProgress_summary_of_qualifies (store : Store) (st : Statement)
    (now : String) (v : String) (hv : st.verb.bind Verb.id = some v)
    (hq : (jsEndsWith v "/answered" || jsEndsWith v "/completed") = true) :
    (updateProgress store st now).summary =
      some (updateProgressSummary (updateProgress store st now).progress now) := by
  simp [updateProgress, hv, hq]

theorem updateProgress_of_not_qualifies (store : Store) (st : Statement) (now : String)
    (h : qualifiesStatement st = false) : updateProgress store st now = store := by
  unfold qualifiesStatement at h
  unfold updateProgress
  cases hv : st.verb.bind Verb.id with
  | none => rfl
  | some v =>
    rw [hv] at h
    simp at h
    simp [h.1, h.2]

theorem qualifies_elim (st : Statement) (h : qualifiesStatement st = true) :
    ∃ v, st.verb.bind Verb.id = some v ∧
      (jsEndsWith v "/answered" || jsEndsWith v "/completed") = true := by
  unfold qualifiesStatement at h
  cases hv : st.verb.bind Verb.id with
  | none => rw [hv] at h; cases h
  | some v => exact ⟨v, rfl, by rw [hv] at h; exact h⟩

theorem findRecord_updateProgress_ne (store : Store) (st : Statement) (now : String)
    (k : String) (hk : k ≠ extractActivitySlug st) :
    findRecord (updateProgress store st now).progress k = findRecord store.progress k := by
  cases hq : qualifiesStatement st
  · rw [updateProgress_of_not_qualifies _ _ _ hq]
  · obtain ⟨v, hv, hg⟩ := qualifies_elim st hq
    rw [updateProgress_progress_of_qualifies _ _ _ _ hv hg]
    exact findRecord_setSlug_ne _ _ _ _ hk

theorem completedAt_updateProgress (store : Store) (st : Statement) (now : String)
    (s : String) (h : completedAt store s) : completedAt (updateProgress store st now) s := by
  obtain ⟨rec, hfind, hcomp⟩ := h
  cases hq : qualifiesStatement st
  · rw [completedAt, updateProgress_of_not_qualifies _ _ _ hq]
    exact ⟨rec, hfind, hcomp⟩
  · obtain ⟨v, hv, hg⟩ := qualifies_elim st hq
    by_cases hs : s = extractActivitySlug st
    · subst hs
      rw [completedAt, updateProgress_progress_of_qualifies _ _ _ _ hv hg]
      refine ⟨_, findRecord_setSlug_self _ _ _, ?_⟩
      rw [hfind, Option.getD_some]
      exact recordAfter_isCompleted_mono _ _ _ _ hcomp
    · rw [completedAt, findRecord_updateProgress_ne _ _ _ _ hs]
      exact ⟨rec, hfind, hcomp⟩

theorem completedAt_applyStatements (evs : List (Statement × String)) :
    ∀ store s, completedAt store s → completedAt (applyStatements store evs) s := by
  induction evs with
  | nil => exact fun store s h => h
  | cons e evs ih =>
    exact fun store s h => ih _ _ (completedAt_updateProgress _ e.1 e.2 _ h)

theorem cpInv_updateProgress (store : Store) (f : String → Option XResult)
    (st : Statement) (now : String) (h : cpInv store f) :
    cpInv (updateProgress store st now) (stepQR f st) := by
  intro s
  cases hq : qualifiesStatement st
  · have hstep : stepQR f st s = f s := by
      unfold stepQR
      rw [if_neg]
      rintro ⟨h1, -⟩
      rw [hq] at h1
      cases h1
    rw [updateProgress_of_not_qualifies _ _ _ hq, hstep]
    exact h s
  · obtain ⟨v, hv, hg⟩ := qualifies_elim st hq
    by_cases hs : extractActivitySlug st = s
    · subst hs
      rw [updateProgress_progress_of_qualifies _ _ _ _ hv hg]
      have hstep : stepQR f st (extractActivitySlug st) =
          match st.result with
          | some r => some r
          | none => f (extractActivitySlug st) := by
        unfold stepQR
        rw [if_pos ⟨hq, rfl⟩]
      constructor
      · intro rec hrec
        rw [findRecord_setSlug_self] at hrec
        injection hrec with hrec
        subst hrec
        rw [hstep, recordAfter_completionPercentage _ _ _ _ hg]
        cases hres : st.result with
        | some r => rfl
        | none =>
          cases hfind : findRecord store.progress (extractActivitySlug st) with
          | some old => simpa using (h _).1 old hfind
          | none =>
            have hf := (h _).2 hfind
            simp [hf, initRecord, calculateCompletionPercentage]
      · intro hnone
        rw [findRecord_setSlug_self] at hnone
        cases hnone
    · have hstep : stepQR f st s = f s := by
        unfold stepQR
        rw [if_neg]
        rintro ⟨-, h2⟩
        exact hs h2
      rw [updateProgress_progress_of_qualifies _ _ _ _ hv hg, hstep,
        findRecord_setSlug_ne _ _ _ _ (fun he => hs he.symm)]
      exact h s

theorem cpInv_applyStatements (evs : List (Statement × String)) :
    ∀ store f, cpInv store f →
      cpInv (applyStatements store evs) (evs.foldl (fun g e => stepQR g e.1) f) := by
  induction evs with
  | nil => exact fun store f h => h
  | cons e evs ih =>
    exact fun store f h => ih _ _ (cpInv_updateProgress _ _ e.1 e.2 h)

theorem cpInv_emptyStore : cpInv emptyStore fun _ => none := by
  intro s
  constructor
  · intro rec hrec
    cases hrec
  · intro _
    rfl

/-! ### Claim theorems -/

/-- C7: for every statement whose verb is absent or whose verb URI ends in
neither `/answered` nor `/completed`, `updateProgress` is a no-op on the
store: neither the progress mapping nor the summary is written or altered. -/
theorem unqualifying_statement_is_noop (store : Store) (st : Statement) (now : String)
    (h : qualifiesStatement st = false) : updateProgress store st now = store :=
  updateProgress_of_not_qualifies store st now h

/-- Witness for C7: an `attempted` statement leaves the store untouched. -/
theorem unqualifying_statement_is_noop_witness :
    updateProgress emptyStore stAttempted "t" = emptyStore :=
  unqualifying_statement_is_noop emptyStore stAttempted "t" (by rfl)

/-- C9: for every qualifying statement with derived slug `s`, `updateProgress`
leaves the progress record of every other slug exactly as read: the mapping
written back binds every slug other than `s` to the record read. -/
theorem qualifying_update_preserves_other_slugs (store : Store) (st : Statement)
    (now : String) (v k : String) (hv : st.verb.bind Verb.id = some v)
    (hq : (jsEndsWith v "/answered" || jsEndsWith v "/completed") = true)
    (hk : k ≠ extractActivitySlug st) :
    findRecord (updateProgress store st now).progress k = findRecord store.progress k :=
  findRecord_updateProgress_ne store st now k hk

/-- Witness for C9: an `answered` statement for `unknown-activity` leaves the
record of slug `other` unchanged. -/
theorem qualifying_update_preserves_other_slugs_witness :
    findRecord (updateProgress storeOther stAnswered "t").progress "other" =
      findRecord storeOther.progress "other" :=
  qualifying_update_preserves_other_slugs storeOther stAnswered "t"
    "http://adlnet.gov/expapi/verbs/answered" "other" rfl (by rfl) (by decide)

/-- C2: for every statement whose verb URI ends in `/answered`,
`updateProgress` increments `questionsAnswered` of that slug's record by
exactly 1 (from its freshly initialized value if the record did not exist)
and leaves `isCompleted` unchanged. -/
theorem answered_increments_questionsAnswered (store : Store) (st : Statement)
    (now : String) (v : String) (hv : st.verb.bind Verb.id = some v)
    (ha : jsEndsWith v "/answered" = true) :
    ∃ rec, findRecord (updateProgress store st now).progress (extractActivitySlug st) =
        some rec ∧
      rec.questionsAnswered =
        ((findRecord store.progress (extractActivitySlug st)).getD
          (initRecord (extractActivitySlug st) now)).questionsAnswered + 1 ∧
      rec.isCompleted =
        ((findRecord store.progress (extractActivitySlug st)).getD
          (initRecord (extractActivitySlug st) now)).isCompleted := by
  have hq : (jsEndsWith v "/answered" || jsEndsWith v "/completed") = true := by
    rw [ha]
    rfl
  rw [updateProgress_progress_of_qualifies _ _ _ _ hv hq]
  refine ⟨_, findRecord_setSlug_self _ _ _, ?_, ?_⟩
  · exact recordAfter_questionsAnswered _ _ _ _ ha
  · exact recordAfter_isCompleted_of_not_completed _ _ _ _ (answered_not_completed v ha)

/-- Witness for C2: a first `answered` statement yields a record with
`questionsAnswered` one above the initialized value and `isCompleted`
unchanged. -/
theorem answered_increments_questionsAnswered_witness :
    ∃ rec, findRecord (updateProgress emptyStore stAnswered "t").progress
        (extractActivitySlug stAnswered) = some rec ∧
      rec.questionsAnswered =
        ((findRecord emptyStore.progress (extractActivitySlug stAnswered)).getD
          (initRecord (extractActivitySlug stAnswered) "t")).questionsAnswered + 1 ∧
      rec.isCompleted =
        ((findRecord emptyStore.progress (extractActivitySlug stAnswered)).getD
          (initRecord (extractActivitySlug stAnswered) "t")).isCompleted :=
  answered_increments_questionsAnswered emptyStore stAnswered "t"
    "http://adlnet.gov/expapi/verbs/answered" rfl (by rfl)

/-- C1: for every statement whose verb URI ends in `/completed`,
`updateProgress` sets `isCompleted` of that slug's record to true, and it
remains true after any batch of further `updateProgress` calls, regardless
of the content of the later statements. -/
theorem completed_sets_isCompleted_forever (store : Store) (st : Statement)
    (now : String) (v : String) (hv : st.verb.bind Verb.id = some v)
    (hc : jsEndsWith v "/completed" = true) (evs : List (Statement × String)) :
    ∃ rec, findRecord (applyStatements (updateProgress store st now) evs).progress
        (extractActivitySlug st) = some rec ∧ rec.isCompleted = true := by
  apply completedAt_applyStatements
  have hq : (jsEndsWith v "/answered" || jsEndsWith v "/completed") = true := by
    rw [hc, Bool.or_true]
  rw [completedAt, updateProgress_progress_of_qualifies _ _ _ _ hv hq]
  exact ⟨_, findRecord_setSlug_self _ _ _, recordAfter_isCompleted_of_completed _ _ _ _ hc⟩

/-- Witness for C1: after a `completed` statement and a later result-free
`answered` statement for the same slug, the record is still completed. -/
theorem completed_sets_isCompleted_forever_witness :
    ∃ rec, findRecord (applyStatements (updateProgress emptyStore stCompleted "t")
        [(stAnswered, "t2")]).progress (extractActivitySlug stCompleted) = some rec ∧
      rec.isCompleted = true :=
  completed_sets_isCompleted_forever emptyStore stCompleted "t"
    "http://adlnet.gov/expapi/verbs/completed" rfl (by rfl) [(stAnswered, "t2")]

/-- C5 (amended): starting from the empty store, after any batch of
`updateProgress` calls every existing record's `completionPercentage` equals
`calculateCompletionPercentage` of the most recent qualifying result for its
slug (`round(raw/max*100)`, 0 when `max` is 0, 0 when no qualifying
statement for the slug carried a result); the value is NOT clamped to
[0,100]. -/
theorem completionPercentage_tracks_last_result (evs : List (Statement × String))
    (s : String) (rec : ProgressRecord)
    (h : findRecord (applyStatements emptyStore evs).progress s = some rec) :
    rec.completionPercentage = calculateCompletionPercentage (lastQR evs s) :=
  (cpInv_applyStatements evs emptyStore (fun _ => none) cpInv_emptyStore s).1 rec h

/-- Witness for C5: one `answered` statement with score 8/10 leaves a record
whose `completionPercentage` is that statement's completion percentage. -/
theorem completionPercentage_tracks_last_result_witness :
    ∃ rec, findRecord (applyStatements emptyStore
        [(stAnswered810, "t")]).progress "unknown-activity" = some rec ∧
      rec.completionPercentage =
        calculateCompletionPercentage (lastQR [(stAnswered810, "t")] "unknown-activity") := by
  refine ⟨_, rfl, ?_⟩
  exact completionPercentage_tracks_last_result [(stAnswered810, "t")]
    "unknown-activity" _ rfl

/-- C5 counterexample: the claim's clamping to [0,100] does not hold: an
`answered` statement with raw 2 and max 1 yields a record whose
`completionPercentage` is 200, outside [0,100]. -/
theorem completionPercentage_not_clamped :
    (findRecord (updateProgress emptyStore stAnsweredOvershoot "t").progress
        "unknown-activity").map ProgressRecord.completionPercentage = some 200 ∧
    ¬ ((200 : ℤ) ≤ 100) := by
  constructor
  · have h1 : (findRecord (updateProgress emptyStore stAnsweredOvershoot "t").progress
        "unknown-activity").map ProgressRecord.completionPercentage =
        some (calculateCompletionPercentage (some resOvershoot)) := rfl
    rw [h1]
    have h2 : calculateCompletionPercentage (some resOvershoot) =
        jsRound (((2 : ℤ) : ℚ) / ((1 : ℤ) : ℚ) * 100) := rfl
    rw [h2]
    norm_num [jsRound]
  · norm_num

/-- C3 (amended): the summary is recomputed from the full mapping just
written on every qualifying update; on the mapping with one completed
activity at percentage 80 and one uncompleted activity the summary has
`totalActivities` 2, `completedActivities` 1, `completionRate` 50 and
`averageScorePercent` 80; in general `averageScorePercent` is the rounded
mean of `completionPercentage` over completed activities with strictly
POSITIVE `completionPercentage`, and 0 when no activity qualifies. -/
theorem summary_recomputed_from_mapping (store : Store) (st : Statement) (now : String) :
    ((updateProgressSummary mapTwo "t2").totalActivities = 2 ∧
      (updateProgressSummary mapTwo "t2").completedActivities = 1 ∧
      (updateProgressSummary mapTwo "t2").completionRate = 50 ∧
      (updateProgressSummary mapTwo "t2").averageScorePercent = 80) ∧
    (∀ (m : ProgressMap) (t : String),
      (updateProgressSummary m t).averageScorePercent = specAveragePositive m) ∧
    (qualifiesStatement st = true →
      (updateProgress store st now).summary =
        some (updateProgressSummary (updateProgress store st now).progress now)) := by
  refine ⟨?_, ?_, ?_⟩
  · norm_num [updateProgressSummary, mapTwo, rec80, recTodo, jsRound]
  · intro m t
    unfold updateProgressSummary specAveragePositive
    by_cases h : ((m.map Prod.snd).filter fun a =>
        a.isCompleted && decide (0 < a.completionPercentage)).length = 0
    · simp [h]
    · simp [h, Nat.pos_of_ne_zero h]
  · intro hq
    obtain ⟨v, hv, hg⟩ := qualifies_elim st hq
    exact updateProgress_summary_of_qualifies store st now v hv hg

/-- Witness for C3: an `answered` statement makes the persisted summary the
recomputation over the mapping just written. -/
theorem summary_recomputed_from_mapping_witness :
    (updateProgress emptyStore stAnswered "t").summary =
      some (updateProgressSummary (updateProgress emptyStore stAnswered "t").progress "t") :=
  (summary_recomputed_from_mapping emptyStore stAnswered "t").2.2 (by rfl)

/-- C3 counterexample: the claim's "nonzero completionPercentage" filter does
not match the code, which requires a strictly positive value: on a mapping
with a single completed activity at percentage -50 the code's average is 0,
while the rounded mean over completed activities with nonzero percentage is
-50. -/
theorem summary_average_ignores_negative_percentage :
    (updateProgressSummary mapNeg "t").averageScorePercent = 0 ∧
    specAverageNonzero mapNeg = -50 ∧ ((0 : ℤ) ≠ -50) := by
  refine ⟨?_, ?_, by decide⟩
  · norm_num [updateProgressSummary, mapNeg, recNeg]
  · norm_num [specAverageNonzero, mapNeg, recNeg, jsRound]

/-- C6: `calculateCompletionPercentage` returns 0 when the argument or its
score is absent and when `max` is 0, and otherwise returns
`round(raw/max*100)` with `raw` defaulting to 0 and `max` to 1; in
particular score 8/10 yields 80, score 1/0 yields 0, and an absent result
yields 0. -/
theorem calculateCompletionPercentage_spec :
    calculateCompletionPercentage
      (some { score := some { raw := some 8, max := some 10 }, success := none }) = 80 ∧
    calculateCompletionPercentage
      (some { score := some { raw := some 1, max := some 0 }, success := none }) = 0 ∧
    calculateCompletionPercentage none = 0 ∧
    (∀ su : Option Bool,
      calculateCompletionPercentage (some { score := none, success := su }) = 0) ∧
    (∀ (sc : Score) (su : Option Bool), sc.max.getD 1 = 0 →
      calculateCompletionPercentage (some { score := some sc, success := su }) = 0) ∧
    (∀ (sc : Score) (su : Option Bool), sc.max.getD 1 ≠ 0 →
      calculateCompletionPercentage (some { score := some sc, success := su }) =
        jsRound ((sc.raw.getD 0 : ℚ) / (sc.max.getD 1 : ℚ) * 100)) := by
  refine ⟨?_, rfl, rfl, fun su => rfl, ?_, ?_⟩
  · have h1 : calculateCompletionPercentage
        (some { score := some { raw := some 8, max := some 10 }, success := none }) =
        jsRound (((8 : ℤ) : ℚ) / ((10 : ℤ) : ℚ) * 100) := rfl
    rw [h1]
    norm_num [jsRound]
  · intro sc su h
    simp [calculateCompletionPercentage, h]
  · intro sc su h
    simp [calculateCompletionPercentage, h]

/-- Witness for C6: score 8/10 has a nonzero max and its completion
percentage is the rounded ratio. -/
theorem calculateCompletionPercentage_spec_witness :
    ((some (10 : ℤ)).getD 1 ≠ 0) ∧
    calculateCompletionPercentage
      (some { score := some { raw := some 8, max := some 10 }, success := none }) =
      jsRound ((((some (8 : ℤ)).getD 0 : ℤ) : ℚ) / (((some (10 : ℤ)).getD 1 : ℤ) : ℚ) * 100) :=
  ⟨by decide, calculateCompletionPercentage_spec.2.2.2.2.2
    { raw := some 8, max := some 10 } none (by decide)⟩

/-- C8: the store read never raises in the model (it is a total function):
an absent entry yields the caller's fallback, an unparsable stored string
yields the fallback, and in particular `getProgress` on a store whose
progress entry is corrupt returns the empty mapping. -/
theorem safeParseJSON_falls_back (stR : RawStore) (key : String) (fallback : Json) :
    (stR key = none → safeParseJSON stR key fallback = fallback) ∧
    (∀ s, stR key = some s → jsonParse s = none → safeParseJSON stR key fallback = fallback) ∧
    getProgress (fun k => if k = PROGRESS_KEY then some "not json" else none) =
      Json.obj [] := by
  refine ⟨?_, ?_, rfl⟩
  · intro h
    simp [safeParseJSON, h]
  · intro s hs hp
    simp only [safeParseJSON, hs]
    by_cases he : s = ""
    · simp [he]
    · simp [he, hp]

/-- Witness for C8: reading any key of the empty store yields the fallback. -/
theorem safeParseJSON_falls_back_witness :
    safeParseJSON (fun _ => none) "k" Json.null = Json.null :=
  (safeParseJSON_falls_back (fun _ => none) "k" Json.null).1 rfl

/-- C10: the fallback applies only to absent, empty or unparsable stored
strings: a stored string that parses as JSON of any shape is returned as-is,
so `getProgress` can return the non-mapping values 0 (for stored text `0`)
and null (for stored text `null`). -/
theorem stored_json_returned_as_is (stR : RawStore) :
    (∀ s v, stR PROGRESS_KEY = some s → jsonParse s = some v → getProgress stR = v) ∧
    getProgress (fun k => if k = PROGRESS_KEY then some "0" else none) = Json.num 0 0 ∧
    getProgress (fun k => if k = PROGRESS_KEY then some "null" else none) = Json.null := by
  refine ⟨?_, rfl, rfl⟩
  intro s v hs hp
  simp only [getProgress, safeParseJSON, hs]
  by_cases he : s = ""
  · subst he
    rw [show jsonParse "" = none from rfl] at hp
    cases hp
  · simp [he, hp]

/-- Witness for C10: stored text `true` parses and is returned as-is. -/
theorem stored_json_returned_as_is_witness :
    getProgress (fun k => if k = PROGRESS_KEY then some "true" else none) = Json.bool true :=
  (stored_json_returned_as_is (fun k => if k = PROGRESS_KEY then some "true" else none)).1
    "true" (Json.bool true) rfl rfl

/-- C4: evaluation of `extractActivitySlug` at the claim's inputs.  With no
context extension and object id
`http://localhost/h5p/entrepreneur-legacy-quick-awareness` the code returns
`h5p` — the url regex's leftmost match captures the second-to-last path
segment, not the activity slug the claim (and the function's own comment)
expects — while a statement with neither a usable context extension nor a
usable object id yields `unknown-activity` as claimed. -/
theorem extractActivitySlug_on_h5p_path :
    extractActivitySlug
      { verb := none,
        object := some ⟨some "http://localhost/h5p/entrepreneur-legacy-quick-awareness"⟩,
        context := none, result := none } = "h5p" ∧
    "h5p" ≠ "entrepreneur-legacy-quick-awareness" ∧
    extractActivitySlug { verb := none, object := none, context := none, result := none } =
      "unknown-activity" :=
  ⟨rfl, by decide, rfl⟩

end XapiTracker
